import Mathlib

/-!
Shallow embedding of the hamkar-backend REST service (Express + Mongoose)
and proofs about its job-request lifecycle, authentication, profile
completion, project visibility and developer search.

Conventions of the embedding:
* Mongo ObjectIds are modelled as natural numbers.
* A collection is a list of records; findById / findOne are List.find?.
* JavaScript string truthiness is modelled on Option String: a field that
  is absent (none) or the empty string (some "") is falsy.
* bcrypt.compare is modelled as equality between the candidate and the
  stored credential string.
* The Joi request-body validators keep only the error (the handlers read
  the raw body), and with default options they reject any key that is not
  declared in the schema; bodies therefore carry an unknownKeys list.
-/

namespace Hamkar

/-- JavaScript truthiness of an optional string field: absent or empty is falsy. -/
def truthy : Option String → Bool
  | none => false
  | some s => s ≠ ""

/-- JavaScript truthiness of an optional numeric field: absent or zero is falsy. -/
def truthyNum : Option Int → Bool
  | none => false
  | some n => n ≠ 0

/-- Developer record, following models/Developer.js (credential kept for the
auth routes; createdAt is the timestamp used as a search sort key). -/
structure Developer where
  id : Nat
  firstName : String := ""
  lastName : String := ""
  email : String := ""
  password : String := ""
  phone : Option String := none
  city : Option String := none
  skills : List String := []
  experienceYears : Option Int := none
  githubUrl : Option String := none
  portfolioUrl : Option String := none
  resumeUrl : Option String := none
  profilePicture : Option String := none
  salaryExpectation : Option Int := none
  isAvailable : Bool := true
  role : String := "Developer"
  createdAt : Int := 0
deriving DecidableEq

/-- Employer record, following models/Employer.js (fields used by the auth routes). -/
structure Employer where
  id : Nat
  companyName : String := ""
  email : String := ""
  password : String := ""
  phone : String := ""
  city : String := ""
  role : String := "Employer"
deriving DecidableEq

/-- JobRequest document, following the jobRequestSchema in models (statuses are
the strings pending, accepted, rejected, withdrawn). -/
structure JobRequest where
  id : Nat
  employerId : Nat
  developerId : Nat
  jobTitle : String := ""
  jobDescription : Option String := none
  salaryOffer : Int := 0
  salaryType : String := "yearly"
  status : String := "pending"
  interviewDate : Option String := none
  interviewLocation : Option String := none
  interviewNotes : Option String := none
  employerNotes : Option String := none
  developerNotes : Option String := none
deriving DecidableEq

/-- JobRequest.findById on a collection. -/
def findJR (db : List JobRequest) (i : Nat) : Option JobRequest :=
  db.find? (fun j => j.id == i)

/-- findByIdAndUpdate: rewrite the document with the given id in place. -/
def updateJR (db : List JobRequest) (i : Nat) (f : JobRequest → JobRequest) :
    List JobRequest :=
  db.map (fun j => if j.id == i then f j else j)

/-- Outcome of a job-request route, tagged by the response site in the source. -/
inductive JRResponse
  /-- 400 from the Joi validation middleware. -/
  | validationError
  /-- 404 Job request not found / Developer not found. -/
  | notFound
  /-- 403 Access denied. -/
  | forbidden
  /-- 400 issued inside a handler with the given message. -/
  | badRequest (msg : String)
  /-- 200 with the (updated) document. -/
  | ok (jr : JobRequest)
  /-- 201 with the inserted document. -/
  | created (jr : JobRequest)
deriving DecidableEq

/-- HTTP status code of each response site, as written in the source. -/
def JRResponse.httpStatus : JRResponse → Nat
  | .validationError => 400
  | .notFound => 404
  | .forbidden => 403
  | .badRequest _ => 400
  | .ok _ => 200
  | .created _ => 201

/-- Body accepted by PUT /api/job-requests/:id.  Known keys are the six fields
of the jobRequestUpdate Joi schema; any other key in the JSON body is
collected in unknownKeys. -/
structure UpdateBody where
  status : Option String := none
  interviewDate : Option String := none
  interviewLocation : Option String := none
  interviewNotes : Option String := none
  employerNotes : Option String := none
  developerNotes : Option String := none
  unknownKeys : List String := []
deriving DecidableEq

/-- Status strings accepted by the jobRequestUpdate Joi schema. -/
def validStatusEnum (s : String) : Bool :=
  s == "pending" || s == "accepted" || s == "rejected" || s == "withdrawn"

/-- Joi.date acceptance on a string value, modelled as the calendar-date form
of the ISO format (YYYY-MM-DD with a plausible month and day), the one
date-string shape the JavaScript specification guarantees Date parsing for.
What matters to the claims is that the empty string and junk are rejected
with a 400, as the real schema does; no claim needs a body that carries a
date. -/
def jsDateParsable (s : String) : Bool :=
  match s.toList with
  | [y1, y2, y3, y4, '-', m1, m2, '-', d1, d2] =>
    (y1.isDigit && y2.isDigit && y3.isDigit && y4.isDigit &&
      m1.isDigit && m2.isDigit && d1.isDigit && d2.isDigit) &&
    (let m := (m1.toNat - 48) * 10 + (m2.toNat - 48)
     let d := (d1.toNat - 48) * 10 + (d2.toNat - 48)
     decide (1 ≤ m) && decide (m ≤ 12) && decide (1 ≤ d) && decide (d ≤ 31))
  | _ => false

/-- The jobRequestUpdate Joi schema under the default options of
schema.validate: unknown keys are rejected, every present string field must
be non-empty (the Joi string.empty default), status must be one of the four
enum values, interviewDate must parse as a date, notes are length-bounded. -/
def validJobRequestUpdate (b : UpdateBody) : Bool :=
  b.unknownKeys.isEmpty &&
  (match b.status with | none => true | some s => validStatusEnum s) &&
  (match b.interviewDate with | none => true | some s => jsDateParsable s) &&
  (match b.interviewLocation with | none => true | some s => s ≠ "") &&
  (match b.interviewNotes with | none => true | some s => s ≠ "" && s.length ≤ 500) &&
  (match b.employerNotes with | none => true | some s => s ≠ "" && s.length ≤ 1000) &&
  (match b.developerNotes with | none => true | some s => s ≠ "" && s.length ≤ 1000)

/-- The updateData object assembled by the PUT handler before
findByIdAndUpdate; a field that is none is not written. -/
structure UpdateData where
  status : Option String := none
  interviewDate : Option String := none
  interviewLocation : Option String := none
  interviewNotes : Option String := none
  employerNotes : Option String := none
  developerNotes : Option String := none
deriving DecidableEq

/-- Role-conditioned construction of updateData, mirroring the if-chains of
the PUT /api/job-requests/:id handler: each body field is copied only when
truthy, the status only when its value is permitted for the role. -/
def buildUpdateData (userRole : String) (b : UpdateBody) : UpdateData :=
  if userRole == "Employer" then
    { interviewDate := if truthy b.interviewDate then b.interviewDate else none
      interviewLocation := if truthy b.interviewLocation then b.interviewLocation else none
      interviewNotes := if truthy b.interviewNotes then b.interviewNotes else none
      employerNotes := if truthy b.employerNotes then b.employerNotes else none
      status :=
        if truthy b.status && ["withdrawn"].contains (b.status.getD "") then b.status
        else none }
  else if userRole == "Developer" then
    { status :=
        if truthy b.status && ["accepted", "rejected"].contains (b.status.getD "") then b.status
        else none
      developerNotes := if truthy b.developerNotes then b.developerNotes else none }
  else {}

/-- Apply an updateData object to a stored document (the $set semantics of
findByIdAndUpdate). -/
def applyUpdate (jr : JobRequest) (u : UpdateData) : JobRequest :=
  { jr with
    status := u.status.getD jr.status
    interviewDate := match u.interviewDate with | some v => some v | none => jr.interviewDate
    interviewLocation := match u.interviewLocation with | some v => some v | none => jr.interviewLocation
    interviewNotes := match u.interviewNotes with | some v => some v | none => jr.interviewNotes
    employerNotes := match u.employerNotes with | some v => some v | none => jr.employerNotes
    developerNotes := match u.developerNotes with | some v => some v | none => jr.developerNotes }

/-- PUT /api/job-requests/:id after authentication: Joi validation, lookup,
ownership check for each role, role-conditioned field filtering, write. -/
def putJobRequest (db : List JobRequest) (userId : Nat) (userRole : String)
    (reqId : Nat) (b : UpdateBody) : JRResponse × List JobRequest :=
  if ¬ validJobRequestUpdate b then (.validationError, db)
  else
    match findJR db reqId with
    | none => (.notFound, db)
    | some jr =>
      if userRole == "Developer" && jr.developerId ≠ userId then (.forbidden, db)
      else if userRole == "Employer" && jr.employerId ≠ userId then (.forbidden, db)
      else
        let u := buildUpdateData userRole b
        (.ok (applyUpdate jr u), updateJR db reqId (fun j => applyUpdate j u))

/-- PATCH /api/job-requests/:id/accept after authenticateToken and
authorizeRole Developer: lookup, ownership, pending check, then the two-field
write with the developerNotes fallback from the source. -/
def acceptJobRequest (db : List JobRequest) (userId : Nat) (reqId : Nat)
    (developerNotes : Option String) : JRResponse × List JobRequest :=
  match findJR db reqId with
  | none => (.notFound, db)
  | some jr =>
    if jr.developerId ≠ userId then (.forbidden, db)
    else if jr.status ≠ "pending" then
      (.badRequest "Job request cannot be accepted in its current status", db)
    else
      let newNotes := if truthy developerNotes then developerNotes else jr.developerNotes
      (.ok { jr with status := "accepted", developerNotes := newNotes },
        updateJR db reqId (fun j => { j with status := "accepted", developerNotes := newNotes }))

/-- PATCH /api/job-requests/:id/reject, structured exactly like accept. -/
def rejectJobRequest (db : List JobRequest) (userId : Nat) (reqId : Nat)
    (developerNotes : Option String) : JRResponse × List JobRequest :=
  match findJR db reqId with
  | none => (.notFound, db)
  | some jr =>
    if jr.developerId ≠ userId then (.forbidden, db)
    else if jr.status ≠ "pending" then
      (.badRequest "Job request cannot be rejected in its current status", db)
    else
      let newNotes := if truthy developerNotes then developerNotes else jr.developerNotes
      (.ok { jr with status := "rejected", developerNotes := newNotes },
        updateJR db reqId (fun j => { j with status := "rejected", developerNotes := newNotes }))

/-- Body accepted by POST /api/job-requests (the jobRequestCreate Joi schema);
status is not a schema key, so a status key in the body would be an unknown key. -/
structure CreateBody where
  developerId : Nat
  jobTitle : String := ""
  jobDescription : Option String := none
  salaryOffer : Int := 0
  salaryType : Option String := none
  interviewDate : Option String := none
  interviewLocation : Option String := none
  interviewNotes : Option String := none
  unknownKeys : List String := []
deriving DecidableEq

/-- The jobRequestCreate Joi schema under the default options of
schema.validate: unknown keys rejected, present optional strings must be
non-empty (Joi string.empty default) and length-bounded, salaryType drawn
from its enum, interviewDate a parseable date. -/
def validJobRequestCreate (b : CreateBody) : Bool :=
  b.unknownKeys.isEmpty &&
  (2 ≤ b.jobTitle.length && b.jobTitle.length ≤ 100) &&
  (match b.jobDescription with | none => true | some s => s ≠ "" && s.length ≤ 2000) &&
  (0 ≤ b.salaryOffer) &&
  (match b.salaryType with
   | none => true
   | some s => ["hourly", "monthly", "yearly"].contains s) &&
  (match b.interviewDate with | none => true | some s => jsDateParsable s) &&
  (match b.interviewLocation with | none => true | some s => s ≠ "") &&
  (match b.interviewNotes with | none => true | some s => s ≠ "" && s.length ≤ 500)

/-- The document inserted by the create handler: the body fields plus the
employerId of the caller; status takes the schema default pending. -/
def newJobRequestFrom (employerId nextId : Nat) (b : CreateBody) : JobRequest :=
  { id := nextId
    employerId := employerId
    developerId := b.developerId
    jobTitle := b.jobTitle
    jobDescription := b.jobDescription
    salaryOffer := b.salaryOffer
    salaryType := b.salaryType.getD "yearly"
    status := "pending"
    interviewDate := b.interviewDate
    interviewLocation := b.interviewLocation
    interviewNotes := b.interviewNotes
    employerNotes := none
    developerNotes := none }

/-- POST /api/job-requests after authenticateToken and authorizeRole Employer:
Joi validation, developer existence, availability, duplicate-pending check
(both availability and duplicate failures are res.status 400 in the source),
then the insert. -/
def createJobRequest (jdb : List JobRequest) (ddb : List Developer)
    (employerId nextId : Nat) (b : CreateBody) : JRResponse × List JobRequest :=
  if ¬ validJobRequestCreate b then (.validationError, jdb)
  else
    match ddb.find? (fun d => d.id == b.developerId) with
    | none => (.notFound, jdb)
    | some dev =>
      if ¬ dev.isAvailable then (.badRequest "Developer is not available for work", jdb)
      else if (jdb.find? (fun j =>
          j.employerId == employerId && j.developerId == b.developerId &&
          j.status == "pending")).isSome then
        (.badRequest "You already have a pending request to this developer", jdb)
      else
        (.created (newJobRequestFrom employerId nextId b),
          jdb ++ [newJobRequestFrom employerId nextId b])

/-! Authentication: token issuance (signup and login) and the verification
middleware, following middlewares/auth.js and routes/auth.js. -/

/-- Decoded JWT payload: the claims signed at every issuance site. -/
structure AuthToken where
  userId : Nat
  role : String
deriving DecidableEq

/-- Developer.findOne on email. -/
def findDeveloperByEmail (ddb : List Developer) (e : String) : Option Developer :=
  ddb.find? (fun d => d.email == e)

/-- Employer.findOne on email. -/
def findEmployerByEmail (edb : List Employer) (e : String) : Option Employer :=
  edb.find? (fun d => d.email == e)

/-- bcrypt.compare, modelled as equality of the candidate with the stored credential. -/
def comparePassword (candidate stored : String) : Bool := candidate == stored

/-- Response envelope of POST /api/auth/login (token only on success; the
success data payload is the public profile, identified here by the user id). -/
structure LoginResponse where
  httpStatus : Nat
  success : Bool
  message : String
  token : Option AuthToken := none
deriving DecidableEq

/-- The shared tail of the login handler: the not-found and the
password-mismatch branches each answer 401 Invalid credentials; on success a
token binding the user id and the requested role is signed. -/
def loginWith (acct : Option (Nat × String)) (pw userType : String) : LoginResponse :=
  match acct with
  | none => ⟨401, false, "Invalid credentials", none⟩
  | some (uid, stored) =>
    if ¬ comparePassword pw stored then ⟨401, false, "Invalid credentials", none⟩
    else ⟨200, true, "Login successful", some ⟨uid, userType⟩⟩

/-- POST /api/auth/login: dispatch the lookup on userType (any other value is
a 400), then the shared credential check. -/
def login (ddb : List Developer) (edb : List Employer)
    (email pw userType : String) : LoginResponse :=
  if userType == "Developer" then
    loginWith ((findDeveloperByEmail ddb email).map (fun d => (d.id, d.password))) pw userType
  else if userType == "Employer" then
    loginWith ((findEmployerByEmail edb email).map (fun e => (e.id, e.password))) pw userType
  else ⟨400, false, "Invalid user type", none⟩

/-- POST /api/auth/developer/signup: on a fresh email the route signs a token
with role Developer; on a duplicate email it answers 409 and signs nothing. -/
def developerSignupToken (ddb : List Developer) (email : String) (newId : Nat) :
    Option AuthToken :=
  if (findDeveloperByEmail ddb email).isSome then none
  else some ⟨newId, "Developer"⟩

/-- POST /api/auth/employer/signup: the employer counterpart, role Employer. -/
def employerSignupToken (edb : List Employer) (email : String) (newId : Nat) :
    Option AuthToken :=
  if (findEmployerByEmail edb email).isSome then none
  else some ⟨newId, "Employer"⟩

/-- Result of the authenticateToken middleware. -/
inductive AuthResult
  /-- 401 with the message of the failing branch. -/
  | unauthorized (msg : String)
  /-- The request proceeds with req.user and req.userRole set. -/
  | authed (userId : Nat) (userRole : String)
deriving DecidableEq

/-- authenticateToken: a missing token is a 401; a decoded role other than
Developer or Employer is a 401 Invalid user role; an account that no longer
exists is a 401; otherwise the caller identity and role are attached.
A token that fails signature or expiry checks is modelled as absent. -/
def authenticateToken (ddb : List Developer) (edb : List Employer)
    (tok : Option AuthToken) : AuthResult :=
  match tok with
  | none => .unauthorized "Access token is required"
  | some t =>
    if t.role == "Developer" then
      match ddb.find? (fun d => d.id == t.userId) with
      | none => .unauthorized "User not found"
      | some u => .authed u.id t.role
    else if t.role == "Employer" then
      match edb.find? (fun e => e.id == t.userId) with
      | none => .unauthorized "User not found"
      | some u => .authed u.id t.role
    else .unauthorized "Invalid user role"

/-- Outcome of the Admin-gated DELETE /api/job-requests/:id route. -/
inductive AdminRouteOutcome
  /-- 401 from authenticateToken. -/
  | unauthorized (msg : String)
  /-- 403 from authorizeRole Admin. -/
  | forbidden
  /-- The handler body ran and produced a response. -/
  | handlerRan (response : JRResponse)
deriving DecidableEq

/-- DELETE /api/job-requests/:id: authenticateToken, then authorizeRole with
the single allowed role Admin, then the findByIdAndDelete handler. -/
def deleteJobRequestRoute (ddb : List Developer) (edb : List Employer)
    (jdb : List JobRequest) (tok : Option AuthToken) (reqId : Nat) :
    AdminRouteOutcome × List JobRequest :=
  match authenticateToken ddb edb tok with
  | .unauthorized m => (.unauthorized m, jdb)
  | .authed _ userRole =>
    if ¬ ["Admin"].contains userRole then (.forbidden, jdb)
    else
      match findJR jdb reqId with
      | none => (.handlerRan .notFound, jdb)
      | some jr => (.handlerRan (.ok jr), jdb.filter (fun j => j.id ≠ reqId))

/-! Projects: the model and GET /api/projects/:id from routes/projects.js.
The route is mounted without authenticateToken, so req.user is never set
when the handler runs; the handler itself reads an optional req.user. -/

/-- Project document, following models/Project.js. -/
structure Project where
  id : Nat
  title : String := ""
  description : String := ""
  techStack : List String := []
  developerId : Nat
  isPublic : Bool := true
deriving DecidableEq

/-- Outcome of GET /api/projects/:id. -/
inductive ProjectResponse
  | notFound
  | forbidden
  | ok (p : Project)
deriving DecidableEq

/-- The GET /api/projects/:id handler as written: a private project is denied
unless req.user is present and is the owning developer. -/
def getProjectByIdHandler (pdb : List Project) (reqUser : Option Nat) (pid : Nat) :
    ProjectResponse :=
  match pdb.find? (fun p => p.id == pid) with
  | none => .notFound
  | some p =>
    if ¬ p.isPublic &&
        (match reqUser with | none => true | some uid => uid ≠ p.developerId) then
      .forbidden
    else .ok p

/-- The mounted route: its middleware chain contains no authenticateToken, so
whatever credentials the client sends, the handler runs with req.user unset. -/
def getProjectByIdRoute (pdb : List Project) (_caller : Option AuthToken) (pid : Nat) :
    ProjectResponse :=
  getProjectByIdHandler pdb none pid

/-! Profile completion: the profileCompletion virtual of models/Developer.js. -/

/-- The number of the 7 required plus 4 optional tracked fields that are
populated, with the exact truthiness tests of the virtual (an array counts
only when non-empty; a number counts only when non-zero). -/
def completedFields (d : Developer) : Nat :=
  (d.firstName != "").toNat + (d.lastName != "").toNat + (d.email != "").toNat +
  (truthy d.phone).toNat + (truthy d.city).toNat +
  (!d.skills.isEmpty).toNat + (truthyNum d.experienceYears).toNat +
  (truthy d.githubUrl).toNat + (truthy d.portfolioUrl).toNat +
  (truthy d.resumeUrl).toNat + (truthy d.profilePicture).toNat

/-- Math.round of completedFields over 11 as a percentage: round half up of
100 times completed over 11, computed as a natural number. -/
def profileCompletion (d : Developer) : Nat :=
  (200 * completedFields d + 11) / 22

/-! Developer search: the aggregation pipeline of POST /api/search/developers.
The pipeline is match, addFields skillMatchCount, sort on skillMatchCount
descending then the requested field, skip, limit; the later lookup and
projection stages only decorate each result and are not modelled. -/

/-- Substring test on character lists (a regex with no anchors matches
anywhere in the subject). -/
def hasSub (pat : List Char) : List Char → Bool
  | [] => pat.isEmpty
  | c :: t => pat.isPrefixOf (c :: t) || hasSub pat t

/-- Case-insensitive substring match, for the $regex city filter with option i. -/
def strContainsCI (hay pat : String) : Bool :=
  hasSub pat.toLower.toList hay.toLower.toList

/-- Body of POST /api/search/developers after the developerSearch Joi schema
and the destructuring defaults of the handler.  The min and max bounds stand
for the optional keys of the experienceYears and salaryExpectation range
objects; the filter is built only from bounds that are present. -/
structure SearchQuery where
  skills : Option (List String) := none
  city : Option String := none
  erMin : Option Int := none
  erMax : Option Int := none
  seMin : Option Int := none
  seMax : Option Int := none
  isAvailable : Bool := true
  page : Nat := 1
  limit : Nat := 10
  sortBy : String := "createdAt"
  sortOrderAsc : Bool := false
deriving DecidableEq

/-- Range condition of the filter: when a bound is present the document must
carry a value inside the bounds (a document missing the field does not match
a $gte or $lte condition). -/
def rangeOK (v lo hi : Option Int) : Bool :=
  match lo, hi with
  | none, none => true
  | _, _ =>
    match v with
    | none => false
    | some x =>
      (match lo with | none => true | some l => decide (l ≤ x)) &&
      (match hi with | none => true | some h => decide (x ≤ h))

/-- The $match filter of the pipeline: availability always, skills $in when a
non-empty skill list is given, case-insensitive city substring when a truthy
city is given, and the two ranges. -/
def matchesFilter (q : SearchQuery) (d : Developer) : Bool :=
  (d.isAvailable == q.isAvailable) &&
  (match q.skills with
   | some ss => if 0 < ss.length then d.skills.any (fun s => ss.contains s) else true
   | none => true) &&
  (match q.city with
   | some c =>
     if c == "" then true
     else (match d.city with | some dc => strContainsCI dc c | none => false)
   | none => true) &&
  rangeOK d.experienceYears q.erMin q.erMax &&
  rangeOK d.salaryExpectation q.seMin q.seMax

/-- The query skill set used by $setIntersection: skills or the empty list. -/
def qSkills (q : SearchQuery) : List String := (q.skills).getD []

/-- skillMatchCount: the size of the set intersection of the developer skills
with the query skills. -/
def matchCount (qs : List String) (d : Developer) : Nat :=
  ((d.skills.dedup).filter (fun s => qs.contains s)).length

/-- Value of the requested tiebreak sort field on a document; name is not a
stored field, so sorting on it compares every document as missing. -/
def sortFieldVal (sortBy : String) (d : Developer) : Option Int :=
  if sortBy == "experienceYears" then d.experienceYears
  else if sortBy == "createdAt" then some d.createdAt
  else none

/-- Ascending comparison of an optional sort key, missing first (the BSON
order used by $sort). -/
def optIntLE : Option Int → Option Int → Bool
  | none, _ => true
  | some _, none => false
  | some a, some b => decide (a ≤ b)

/-- Direction-adjusted tiebreak comparison: descending reverses the order,
which puts missing values last. -/
def tieLE (asc : Bool) (x y : Option Int) : Bool :=
  if asc then optIntLE x y else optIntLE y x

/-- The compound $sort order: skillMatchCount descending first, the requested
field in the requested direction as tiebreak. -/
def rankRel (qs : List String) (sortBy : String) (asc : Bool)
    (a b : Developer) : Prop :=
  matchCount qs b < matchCount qs a ∨
  (matchCount qs a = matchCount qs b ∧
    tieLE asc (sortFieldVal sortBy a) (sortFieldVal sortBy b) = true)

instance rankRelDecidable (qs : List String) (sortBy : String) (asc : Bool) :
    DecidableRel (rankRel qs sortBy asc) := fun a b => by
  unfold rankRel; exact inferInstance

theorem optIntLE_total (x y : Option Int) : optIntLE x y = true ∨ optIntLE y x = true := by
  rcases x with _ | a <;> rcases y with _ | b
  · left; rfl
  · left; rfl
  · right; rfl
  · simp only [optIntLE, decide_eq_true_eq]
    omega

theorem optIntLE_trans {x y z : Option Int} (h1 : optIntLE x y = true)
    (h2 : optIntLE y z = true) : optIntLE x z = true := by
  rcases x with _ | a
  · rfl
  · rcases y with _ | b
    · exact absurd h1 (by simp [optIntLE])
    · rcases z with _ | c
      · exact absurd h2 (by simp [optIntLE])
      · simp only [optIntLE, decide_eq_true_eq] at h1 h2 ⊢
        omega

theorem tieLE_total (asc : Bool) (x y : Option Int) :
    tieLE asc x y = true ∨ tieLE asc y x = true := by
  cases asc <;> simp only [tieLE, if_true, if_false, Bool.false_eq_true]
  · exact optIntLE_total y x
  · exact optIntLE_total x y

theorem tieLE_trans (asc : Bool) {x y z : Option Int} (h1 : tieLE asc x y = true)
    (h2 : tieLE asc y z = true) : tieLE asc x z = true := by
  cases asc <;> simp_all [tieLE]
  · exact optIntLE_trans h2 h1
  · exact optIntLE_trans h1 h2

instance rankRelTotal (qs : List String) (sortBy : String) (asc : Bool) :
    IsTotal Developer (rankRel qs sortBy asc) := by
  constructor
  intro a b
  unfold rankRel
  rcases Nat.lt_trichotomy (matchCount qs a) (matchCount qs b) with h | h | h
  · exact Or.inr (Or.inl h)
  · rcases tieLE_total asc (sortFieldVal sortBy a) (sortFieldVal sortBy b) with ht | ht
    · exact Or.inl (Or.inr ⟨h, ht⟩)
    · exact Or.inr (Or.inr ⟨h.symm, ht⟩)
  · exact Or.inl (Or.inl h)

instance rankRelTrans (qs : List String) (sortBy : String) (asc : Bool) :
    IsTrans Developer (rankRel qs sortBy asc) := by
  constructor
  intro a b c hab hbc
  rcases hab with h1 | ⟨h1, t1⟩ <;> rcases hbc with h2 | ⟨h2, t2⟩
  · exact Or.inl (h2.trans h1)
  · exact Or.inl (h2 ▸ h1)
  · exact Or.inl (h1 ▸ h2)
  · exact Or.inr ⟨h1.trans h2, tieLE_trans asc t1 t2⟩

/-- The fully ranked match list: the filtered collection sorted by the
compound order (pagination has not been applied yet). -/
def searchRanking (q : SearchQuery) (devs : List Developer) : List Developer :=
  List.insertionSort (rankRel (qSkills q) q.sortBy q.sortOrderAsc)
    (devs.filter (matchesFilter q))

/-- The response page: $skip of (page minus 1) times limit, then $limit,
applied after the sort stage. -/
def searchDevelopers (q : SearchQuery) (devs : List Developer) : List Developer :=
  ((searchRanking q devs).drop ((q.page - 1) * q.limit)).take q.limit

/-! Helper lemmas and concrete fixtures used by the claim theorems. -/

theorem putJobRequest_eq_ok (db : List JobRequest) (jr : JobRequest)
    (i uid : Nat) (role : String) (b : UpdateBody)
    (hv : validJobRequestUpdate b = true)
    (hfind : findJR db i = some jr)
    (h1 : ¬(role = "Developer" ∧ jr.developerId ≠ uid))
    (h2 : ¬(role = "Employer" ∧ jr.employerId ≠ uid)) :
    putJobRequest db uid role i b =
      (.ok (applyUpdate jr (buildUpdateData role b)),
        updateJR db i (fun j => applyUpdate j (buildUpdateData role b))) := by
  unfold putJobRequest
  rw [hv, hfind]
  simp only [not_true, ite_false, if_false, Bool.not_true]
  simp [h1, h2]

/-- Fixture: an available developer who is also an account with a credential. -/
def exDev1 : Developer := { id := 1, email := "a@x.com", password := "pw", isAvailable := true }

/-- Fixture: a pending job request from employer 5 to developer 1. -/
def exPending : JobRequest := { id := 9, employerId := 5, developerId := 1, status := "pending" }

/-- Fixture: a withdrawn (terminal) job request from employer 5 to developer 2. -/
def exWithdrawn : JobRequest :=
  { id := 1, employerId := 5, developerId := 2, jobTitle := "SE", status := "withdrawn" }

/-- Fixture: a well-formed creation body targeting developer 1. -/
def exCreateBody : CreateBody := { developerId := 1, jobTitle := "Dev", salaryOffer := 10 }

/-- Fixture: a private project owned by developer 7. -/
def exPrivProject : Project := { id := 1, developerId := 7, isPublic := false }

/-- C1 counterexample: the claim says a status change attempted through the
update operation on a terminal JobRequest fails with InvalidState (400) and
leaves the stored status unchanged.  On the withdrawn request exWithdrawn the
owning Developer issues PUT with status accepted: the operation answers 200
with the changed document and the stored status becomes accepted. -/
theorem c1_terminal_update_counterexample :
    (putJobRequest [exWithdrawn] 2 "Developer" 1 { status := some "accepted" }).1 =
      JRResponse.ok { exWithdrawn with status := "accepted" } ∧
    (putJobRequest [exWithdrawn] 2 "Developer" 1 { status := some "accepted" }).2 =
      [{ exWithdrawn with status := "accepted" }] ∧
    exWithdrawn.status = "withdrawn" ∧
    (JRResponse.ok { exWithdrawn with status := "accepted" }).httpStatus = 200 := by
  refine ⟨?_, ?_, rfl, rfl⟩ <;> rfl

/-- C1 amended: for a JobRequest in a terminal state (accepted, rejected or
withdrawn), the accept and reject operations fail with a 400 and leave the
collection unchanged; the update operation, however, does not check the
current status, so a role-permitted status value (accepted or rejected for
the owning Developer, withdrawn for the owning Employer) is applied even
from a terminal state. -/
theorem c1_terminal_state_amended
    (db : List JobRequest) (jr : JobRequest) (i uid : Nat)
    (notes : Option String) (b : UpdateBody) (s : String)
    (hfind : findJR db i = some jr)
    (hterm : jr.status = "accepted" ∨ jr.status = "rejected" ∨ jr.status = "withdrawn") :
    (jr.developerId = uid →
      acceptJobRequest db uid i notes =
        (.badRequest "Job request cannot be accepted in its current status", db) ∧
      rejectJobRequest db uid i notes =
        (.badRequest "Job request cannot be rejected in its current status", db)) ∧
    (jr.developerId = uid → validJobRequestUpdate b = true → b.status = some s →
      (s = "accepted" ∨ s = "rejected") →
      (putJobRequest db uid "Developer" i b).1 =
        .ok (applyUpdate jr (buildUpdateData "Developer" b)) ∧
      (applyUpdate jr (buildUpdateData "Developer" b)).status = s) ∧
    (jr.employerId = uid → validJobRequestUpdate b = true → b.status = some "withdrawn" →
      (putJobRequest db uid "Employer" i b).1 =
        .ok (applyUpdate jr (buildUpdateData "Employer" b)) ∧
      (applyUpdate jr (buildUpdateData "Employer" b)).status = "withdrawn") := by
  have hnp : jr.status ≠ "pending" := by
    rcases hterm with h | h | h <;> rw [h] <;> decide
  refine ⟨?_, ?_, ?_⟩
  · intro hown
    constructor
    · unfold acceptJobRequest
      rw [hfind]
      simp [hown, hnp]
    · unfold rejectJobRequest
      rw [hfind]
      simp [hown, hnp]
  · intro hown hv hs hsval
    have hput := putJobRequest_eq_ok db jr i uid "Developer" b hv hfind
      (by simp [hown]) (by simp)
    refine ⟨by rw [hput], ?_⟩
    have hst : (buildUpdateData "Developer" b).status = some s := by
      unfold buildUpdateData
      simp only [beq_iff_eq, reduceIte]
      rw [hs]
      rcases hsval with h | h <;> subst h <;> rfl
    simp [applyUpdate, hst]
  · intro hown hv hs
    have hput := putJobRequest_eq_ok db jr i uid "Employer" b hv hfind
      (by simp) (by simp [hown])
    refine ⟨by rw [hput], ?_⟩
    have hst : (buildUpdateData "Employer" b).status = some "withdrawn" := by
      unfold buildUpdateData
      simp only [beq_iff_eq, reduceIte]
      rw [hs]
      rfl
    simp [applyUpdate, hst]

/-- C1 witness: the amended theorem applied to the withdrawn fixture. -/
theorem c1_terminal_state_amended_witness :
    acceptJobRequest [exWithdrawn] 2 1 none =
      (.badRequest "Job request cannot be accepted in its current status", [exWithdrawn]) ∧
    (putJobRequest [exWithdrawn] 2 "Developer" 1 { status := some "accepted" }).1 =
      .ok (applyUpdate exWithdrawn (buildUpdateData "Developer" { status := some "accepted" })) := by
  have h := c1_terminal_state_amended [exWithdrawn] exWithdrawn 1 2 none
    { status := some "accepted" } "accepted" (by rfl) (by right; right; rfl)
  exact ⟨(h.1 rfl).1, (h.2.1 rfl (by decide) rfl (Or.inl rfl)).1⟩

/-- C2 counterexample: the claim says a duplicate pending request fails with
HTTP 409.  On a collection already holding the pending request exPending, the
same employer creating against the same developer gets HTTP 400 (the handler
uses res.status 400 for this branch), not 409; no document is inserted. -/
theorem c2_duplicate_status_counterexample :
    (createJobRequest [exPending] [exDev1] 5 10 exCreateBody).1 =
      JRResponse.badRequest "You already have a pending request to this developer" ∧
    (createJobRequest [exPending] [exDev1] 5 10 exCreateBody).1.httpStatus = 400 ∧
    (createJobRequest [exPending] [exDev1] 5 10 exCreateBody).1.httpStatus ≠ 409 ∧
    (createJobRequest [exPending] [exDev1] 5 10 exCreateBody).2 = [exPending] := by
  refine ⟨rfl, rfl, by decide, rfl⟩

/-- C2 amended: for every (employerId, developerId) pair, creating while a
pending JobRequest for the pair exists fails with HTTP 400 (message: You
already have a pending request to this developer) and inserts nothing;
otherwise (the developer existing and available, the body valid) it inserts
a new JobRequest whose status is pending. -/
theorem c2_duplicate_pending_amended
    (jdb : List JobRequest) (ddb : List Developer) (eid nid : Nat)
    (b : CreateBody) (dev : Developer)
    (hv : validJobRequestCreate b = true)
    (hfind : ddb.find? (fun d => d.id == b.developerId) = some dev)
    (havail : dev.isAvailable = true) :
    ((jdb.find? (fun j => j.employerId == eid && j.developerId == b.developerId &&
        j.status == "pending")).isSome = true →
      createJobRequest jdb ddb eid nid b =
        (.badRequest "You already have a pending request to this developer", jdb) ∧
      (JRResponse.badRequest "You already have a pending request to this developer").httpStatus
        = 400) ∧
    ((jdb.find? (fun j => j.employerId == eid && j.developerId == b.developerId &&
        j.status == "pending")).isSome = false →
      createJobRequest jdb ddb eid nid b =
        (.created (newJobRequestFrom eid nid b), jdb ++ [newJobRequestFrom eid nid b]) ∧
      (newJobRequestFrom eid nid b).status = "pending") := by
  constructor
  · intro hdup
    refine ⟨?_, rfl⟩
    unfold createJobRequest
    rw [hv, hfind]
    simp [havail, hdup]
  · intro hdup
    refine ⟨?_, rfl⟩
    unfold createJobRequest
    rw [hv, hfind]
    simp [havail, hdup]

/-- C2 witness: the amended theorem applied to the duplicate fixture and to
an empty collection. -/
theorem c2_duplicate_pending_amended_witness :
    createJobRequest [exPending] [exDev1] 5 10 exCreateBody =
      (.badRequest "You already have a pending request to this developer", [exPending]) ∧
    createJobRequest [] [exDev1] 5 10 exCreateBody =
      (.created (newJobRequestFrom 5 10 exCreateBody),
        [newJobRequestFrom 5 10 exCreateBody]) := by
  have h1 := c2_duplicate_pending_amended [exPending] [exDev1] 5 10 exCreateBody exDev1
    (by decide) (by rfl) (by rfl)
  have h2 := c2_duplicate_pending_amended [] [exDev1] 5 10 exCreateBody exDev1
    (by decide) (by rfl) (by rfl)
  exact ⟨(h1.1 (by rfl)).1, (h2.2 (by rfl)).1⟩

/-- C3 confirmed: on a valid creation body, a missing target developer gives
404 with no insert, and an existing but unavailable target developer gives
400 (Developer is not available for work) with no insert. -/
theorem c3_create_availability_checks
    (jdb : List JobRequest) (ddb : List Developer) (eid nid : Nat) (b : CreateBody)
    (hv : validJobRequestCreate b = true) :
    (ddb.find? (fun d => d.id == b.developerId) = none →
      createJobRequest jdb ddb eid nid b = (.notFound, jdb) ∧
      JRResponse.notFound.httpStatus = 404) ∧
    (∀ dev, ddb.find? (fun d => d.id == b.developerId) = some dev →
      dev.isAvailable = false →
      createJobRequest jdb ddb eid nid b =
        (.badRequest "Developer is not available for work", jdb) ∧
      (JRResponse.badRequest "Developer is not available for work").httpStatus = 400) := by
  constructor
  · intro hfind
    refine ⟨?_, rfl⟩
    unfold createJobRequest
    rw [hv, hfind]
    simp
  · intro dev hfind hun
    refine ⟨?_, rfl⟩
    unfold createJobRequest
    rw [hv, hfind]
    simp [hun]

/-- C3 witness: the theorem applied to a missing developer and to an
unavailable developer. -/
theorem c3_create_availability_checks_witness :
    createJobRequest [] [exDev1] 5 10 { exCreateBody with developerId := 3 } =
      (.notFound, []) ∧
    createJobRequest [] [{ exDev1 with isAvailable := false }] 5 10 exCreateBody =
      (.badRequest "Developer is not available for work", []) := by
  have h1 := c3_create_availability_checks [] [exDev1] 5 10
    { exCreateBody with developerId := 3 } (by decide)
  have h2 := c3_create_availability_checks [] [{ exDev1 with isAvailable := false }] 5 10
    exCreateBody (by decide)
  exact ⟨(h1.1 (by rfl)).1, (h2.2 { exDev1 with isAvailable := false } (by rfl) (by rfl)).1⟩

/-- Restriction of an update body to the fields an Employer may write
(interviewDate, interviewLocation, interviewNotes, employerNotes, status). -/
def employerAllowedBody (b : UpdateBody) : UpdateBody :=
  { status := b.status
    interviewDate := b.interviewDate
    interviewLocation := b.interviewLocation
    interviewNotes := b.interviewNotes
    employerNotes := b.employerNotes
    developerNotes := none
    unknownKeys := [] }

/-- Restriction of an update body to the fields a Developer may write
(status, developerNotes). -/
def developerAllowedBody (b : UpdateBody) : UpdateBody :=
  { status := b.status
    developerNotes := b.developerNotes
    unknownKeys := [] }

theorem applyUpdate_status (jr : JobRequest) (u : UpdateData) :
    (applyUpdate jr u).status = u.status.getD jr.status := rfl

theorem buildUpdateData_employer_status (b : UpdateBody) :
    (buildUpdateData "Employer" b).status = none ∨
    (buildUpdateData "Employer" b).status = some "withdrawn" := by
  unfold buildUpdateData
  rw [if_pos (by decide : (("Employer" : String) == "Employer") = true)]
  dsimp only
  split
  next h =>
    right
    rcases hb : b.status with _ | sv
    · rw [hb] at h; exact absurd h (by simp [truthy])
    · rw [hb] at h
      have h2 := ((Bool.and_eq_true _ _).mp h).2
      have h3 : sv = "withdrawn" := by simpa using h2
      rw [h3]
  next => left; rfl

theorem buildUpdateData_developer_status (b : UpdateBody) :
    (buildUpdateData "Developer" b).status = none ∨
    (buildUpdateData "Developer" b).status = some "accepted" ∨
    (buildUpdateData "Developer" b).status = some "rejected" := by
  unfold buildUpdateData
  rw [if_neg (by decide : ¬((("Developer" : String) == "Employer") = true)),
    if_pos (by decide : (("Developer" : String) == "Developer") = true)]
  dsimp only
  split
  next h =>
    right
    rcases hb : b.status with _ | sv
    · rw [hb] at h; exact absurd h (by simp [truthy])
    · rw [hb] at h
      have h2 := ((Bool.and_eq_true _ _).mp h).2
      have h3 : sv = "accepted" ∨ sv = "rejected" := by simpa using h2
      rcases h3 with h3 | h3
      · left; rw [h3]
      · right; rw [h3]
  next => left; rfl

theorem validJobRequestUpdate_employerAllowed (b : UpdateBody)
    (hv : validJobRequestUpdate b = true) :
    validJobRequestUpdate (employerAllowedBody b) = true := by
  unfold validJobRequestUpdate at hv ⊢
  unfold employerAllowedBody
  dsimp only
  simp only [Bool.and_eq_true] at hv
  obtain ⟨⟨⟨⟨⟨⟨h1, h2⟩, h3⟩, h4⟩, h5⟩, h6⟩, h7⟩ := hv
  rw [h2, h3, h4, h5, h6]
  rfl

theorem validJobRequestUpdate_developerAllowed (b : UpdateBody)
    (hv : validJobRequestUpdate b = true) :
    validJobRequestUpdate (developerAllowedBody b) = true := by
  unfold validJobRequestUpdate at hv ⊢
  unfold developerAllowedBody
  dsimp only
  simp only [Bool.and_eq_true] at hv
  obtain ⟨⟨⟨⟨⟨⟨h1, h2⟩, h3⟩, h4⟩, h5⟩, h6⟩, h7⟩ := hv
  rw [h2, h7]
  rfl

/-- C4 counterexample: the claim says every field outside the caller role
allowed set is silently ignored and the operation still succeeds, never
rejected with an error.  The owning Employer of the pending fixture sends a
body whose extra key jobTitle lies outside the jobRequestUpdate schema: the
Joi validation middleware answers 400 before the handler runs, so the
operation is rejected rather than succeeding with the field ignored. -/
theorem c4_unknown_key_counterexample :
    (putJobRequest [exPending] 5 "Employer" 9
        { employerNotes := some "hi", unknownKeys := ["jobTitle"] }).1 =
      JRResponse.validationError ∧
    (putJobRequest [exPending] 5 "Employer" 9
        { employerNotes := some "hi", unknownKeys := ["jobTitle"] }).1.httpStatus = 400 ∧
    (putJobRequest [exPending] 5 "Employer" 9
        { employerNotes := some "hi", unknownKeys := ["jobTitle"] }).2 = [exPending] := by
  refine ⟨rfl, rfl, rfl⟩

/-- C4 amended: for an authenticated update whose body passes the
jobRequestUpdate validation (schema keys only, present strings non-empty and
length-bounded, status one of the enum values, interviewDate a parseable
date), the handler writes only fields of the caller role allowed set,
silently ignores the rest (the operation succeeds), and the result coincides
with the result on the body restricted to the allowed set; a body with a key
outside the schema, or with an empty-string value in a schema key, is
instead rejected with 400 by the validation middleware before the handler
runs. -/
theorem c4_role_filtering_amended
    (db : List JobRequest) (jr : JobRequest) (i uid : Nat) (b : UpdateBody)
    (hfind : findJR db i = some jr)
    (hv : validJobRequestUpdate b = true) :
    (jr.employerId = uid →
      (putJobRequest db uid "Employer" i b).1 =
        .ok (applyUpdate jr (buildUpdateData "Employer" b)) ∧
      (applyUpdate jr (buildUpdateData "Employer" b)).developerNotes = jr.developerNotes ∧
      ((applyUpdate jr (buildUpdateData "Employer" b)).status = jr.status ∨
        (applyUpdate jr (buildUpdateData "Employer" b)).status = "withdrawn") ∧
      putJobRequest db uid "Employer" i b =
        putJobRequest db uid "Employer" i (employerAllowedBody b)) ∧
    (jr.developerId = uid →
      (putJobRequest db uid "Developer" i b).1 =
        .ok (applyUpdate jr (buildUpdateData "Developer" b)) ∧
      (applyUpdate jr (buildUpdateData "Developer" b)).interviewDate = jr.interviewDate ∧
      (applyUpdate jr (buildUpdateData "Developer" b)).interviewLocation = jr.interviewLocation ∧
      (applyUpdate jr (buildUpdateData "Developer" b)).interviewNotes = jr.interviewNotes ∧
      (applyUpdate jr (buildUpdateData "Developer" b)).employerNotes = jr.employerNotes ∧
      ((applyUpdate jr (buildUpdateData "Developer" b)).status = jr.status ∨
        (applyUpdate jr (buildUpdateData "Developer" b)).status = "accepted" ∨
        (applyUpdate jr (buildUpdateData "Developer" b)).status = "rejected") ∧
      putJobRequest db uid "Developer" i b =
        putJobRequest db uid "Developer" i (developerAllowedBody b)) ∧
    (∀ b2 : UpdateBody, b2.unknownKeys ≠ [] →
      putJobRequest db uid "Employer" i b2 = (.validationError, db) ∧
      putJobRequest db uid "Developer" i b2 = (.validationError, db)) ∧
    (∀ b2 : UpdateBody,
      (b2.interviewLocation = some "" ∨ b2.interviewNotes = some "" ∨
        b2.employerNotes = some "" ∨ b2.developerNotes = some "") →
      putJobRequest db uid "Employer" i b2 = (.validationError, db) ∧
      putJobRequest db uid "Developer" i b2 = (.validationError, db)) := by
  refine ⟨?_, ?_, ?_, ?_⟩
  · intro hown
    have hput := putJobRequest_eq_ok db jr i uid "Employer" b hv hfind
      (by simp) (by simp [hown])
    have hput2 := putJobRequest_eq_ok db jr i uid "Employer" (employerAllowedBody b)
      (validJobRequestUpdate_employerAllowed b hv) hfind (by simp) (by simp [hown])
    have hbuild : buildUpdateData "Employer" (employerAllowedBody b) =
        buildUpdateData "Employer" b := rfl
    refine ⟨by rw [hput], ?_, ?_, by rw [hput, hput2, hbuild]⟩
    · simp [applyUpdate, buildUpdateData]
    · rw [applyUpdate_status]
      rcases buildUpdateData_employer_status b with h | h
      · left; rw [h]; rfl
      · right; rw [h]; rfl
  · intro hown
    have hput := putJobRequest_eq_ok db jr i uid "Developer" b hv hfind
      (by simp [hown]) (by simp)
    have hput2 := putJobRequest_eq_ok db jr i uid "Developer" (developerAllowedBody b)
      (validJobRequestUpdate_developerAllowed b hv) hfind (by simp [hown]) (by simp)
    have hbuild : buildUpdateData "Developer" (developerAllowedBody b) =
        buildUpdateData "Developer" b := rfl
    refine ⟨by rw [hput], ?_, ?_, ?_, ?_, ?_, by rw [hput, hput2, hbuild]⟩
    · simp [applyUpdate, buildUpdateData]
    · simp [applyUpdate, buildUpdateData]
    · simp [applyUpdate, buildUpdateData]
    · simp [applyUpdate, buildUpdateData]
    · rw [applyUpdate_status]
      rcases buildUpdateData_developer_status b with h | h | h
      · left; rw [h]; rfl
      · right; left; rw [h]; rfl
      · right; right; rw [h]; rfl
  · intro b2 hunk
    have hval : validJobRequestUpdate b2 = false := by
      unfold validJobRequestUpdate
      simp [List.isEmpty_iff, hunk]
    constructor <;> (unfold putJobRequest; rw [hval]; simp)
  · intro b2 hemp
    have hval : validJobRequestUpdate b2 = false := by
      unfold validJobRequestUpdate
      rcases hemp with h | h | h | h <;> rw [h] <;> simp
    constructor <;> (unfold putJobRequest; rw [hval]; simp)

/-- C4 witness: the amended theorem applied to the pending fixture, with a
Developer body that also carries an interviewLocation (ignored, unchanged). -/
theorem c4_role_filtering_amended_witness :
    (putJobRequest [exPending] 1 "Developer" 9
        { status := some "accepted", interviewLocation := some "HQ" }).1 =
      .ok (applyUpdate exPending (buildUpdateData "Developer"
        { status := some "accepted", interviewLocation := some "HQ" })) ∧
    (applyUpdate exPending (buildUpdateData "Developer"
        { status := some "accepted", interviewLocation := some "HQ" })).interviewLocation =
      exPending.interviewLocation := by
  have h := c4_role_filtering_amended [exPending] exPending 9 1
    { status := some "accepted", interviewLocation := some "HQ" } (by rfl) (by decide)
  exact ⟨(h.2.1 rfl).1, (h.2.1 rfl).2.2.1⟩

/-- C5: evaluation at the failing input.  The claim (and the spec scenario)
says the owning Developer, authenticated with their own token, gets 200 for
their private project.  The mounted route carries no authenticateToken
middleware, so req.user is never populated and the route answers 403 even to
the owner; the handler itself would have answered 200 had req.user been set,
which shows the ownership branch is dead code.  The anonymous half of the
claim (403) does hold. -/
theorem c5_private_project_owner_forbidden :
    getProjectByIdRoute [exPrivProject] none 1 = ProjectResponse.forbidden ∧
    getProjectByIdRoute [exPrivProject] (some ⟨7, "Developer"⟩) 1 =
      ProjectResponse.forbidden ∧
    getProjectByIdHandler [exPrivProject] (some 7) 1 = ProjectResponse.ok exPrivProject := by
  refine ⟨rfl, rfl, rfl⟩

theorem toNat_le_one (b : Bool) : b.toNat ≤ 1 := by cases b <;> simp

theorem toNat_mono {a b : Bool} (h : a = true → b = true) : a.toNat ≤ b.toNat := by
  cases a
  · simp
  · rw [h rfl]

/-- C6 confirmed: profileCompletion is a natural number bounded by 100 (hence
an integer in the interval from 0 to 100), and it is monotone: making any of
the 11 tracked fields populated (in the truthiness sense of the virtual)
while not depopulating the others never decreases the value. -/
theorem c6_profile_completion :
    (∀ d : Developer, profileCompletion d ≤ 100) ∧
    (∀ d1 d2 : Developer,
      ((d1.firstName != "") = true → (d2.firstName != "") = true) →
      ((d1.lastName != "") = true → (d2.lastName != "") = true) →
      ((d1.email != "") = true → (d2.email != "") = true) →
      (truthy d1.phone = true → truthy d2.phone = true) →
      (truthy d1.city = true → truthy d2.city = true) →
      ((!d1.skills.isEmpty) = true → (!d2.skills.isEmpty) = true) →
      (truthyNum d1.experienceYears = true → truthyNum d2.experienceYears = true) →
      (truthy d1.githubUrl = true → truthy d2.githubUrl = true) →
      (truthy d1.portfolioUrl = true → truthy d2.portfolioUrl = true) →
      (truthy d1.resumeUrl = true → truthy d2.resumeUrl = true) →
      (truthy d1.profilePicture = true → truthy d2.profilePicture = true) →
      profileCompletion d1 ≤ profileCompletion d2) := by
  have hbound : ∀ d : Developer, completedFields d ≤ 11 := by
    intro d
    unfold completedFields
    have h1 := toNat_le_one (d.firstName != "")
    have h2 := toNat_le_one (d.lastName != "")
    have h3 := toNat_le_one (d.email != "")
    have h4 := toNat_le_one (truthy d.phone)
    have h5 := toNat_le_one (truthy d.city)
    have h6 := toNat_le_one (!d.skills.isEmpty)
    have h7 := toNat_le_one (truthyNum d.experienceYears)
    have h8 := toNat_le_one (truthy d.githubUrl)
    have h9 := toNat_le_one (truthy d.portfolioUrl)
    have h10 := toNat_le_one (truthy d.resumeUrl)
    have h11 := toNat_le_one (truthy d.profilePicture)
    omega
  constructor
  · intro d
    unfold profileCompletion
    calc (200 * completedFields d + 11) / 22
        ≤ (200 * 11 + 11) / 22 := Nat.div_le_div_right (by have := hbound d; omega)
      _ = 100 := by norm_num
  · intro d1 d2 g1 g2 g3 g4 g5 g6 g7 g8 g9 g10 g11
    have hc : completedFields d1 ≤ completedFields d2 := by
      unfold completedFields
      have h1 := toNat_mono g1
      have h2 := toNat_mono g2
      have h3 := toNat_mono g3
      have h4 := toNat_mono g4
      have h5 := toNat_mono g5
      have h6 := toNat_mono g6
      have h7 := toNat_mono g7
      have h8 := toNat_mono g8
      have h9 := toNat_mono g9
      have h10 := toNat_mono g10
      have h11 := toNat_mono g11
      omega
    exact Nat.div_le_div_right (by omega)

/-- C6 witness: the theorem applied to a concrete developer and to an empty
profile below it. -/
theorem c6_profile_completion_witness :
    profileCompletion { id := 0, firstName := "Ada" } ≤ 100 ∧
    profileCompletion { id := 0 } ≤ profileCompletion { id := 0, firstName := "Ada" } := by
  refine ⟨c6_profile_completion.1 { id := 0, firstName := "Ada" }, ?_⟩
  exact c6_profile_completion.2 { id := 0 } { id := 0, firstName := "Ada" }
    (by decide) (by decide) (by decide) (by decide) (by decide) (by decide)
    (by decide) (by decide) (by decide) (by decide) (by decide)

/-- C7 confirmed: for either account kind, logging in with an email that has
no account and logging in with an existing email but a wrong password
produce identical responses: 401, success false, message Invalid
credentials, no token. -/
theorem c7_login_no_enumeration :
    (∀ (ddb : List Developer) (edb : List Employer) (e1 p1 e2 p2 : String)
        (d : Developer),
      findDeveloperByEmail ddb e1 = none →
      findDeveloperByEmail ddb e2 = some d →
      comparePassword p2 d.password = false →
      login ddb edb e1 p1 "Developer" = login ddb edb e2 p2 "Developer" ∧
      login ddb edb e1 p1 "Developer" = ⟨401, false, "Invalid credentials", none⟩) ∧
    (∀ (ddb : List Developer) (edb : List Employer) (e1 p1 e2 p2 : String)
        (em : Employer),
      findEmployerByEmail edb e1 = none →
      findEmployerByEmail edb e2 = some em →
      comparePassword p2 em.password = false →
      login ddb edb e1 p1 "Employer" = login ddb edb e2 p2 "Employer" ∧
      login ddb edb e1 p1 "Employer" = ⟨401, false, "Invalid credentials", none⟩) := by
  constructor
  · intro ddb edb e1 p1 e2 p2 d h1 h2 h3
    unfold login
    rw [if_pos (by decide : (("Developer" : String) == "Developer") = true)]
    rw [h1, h2]
    unfold loginWith
    simp [h3]
  · intro ddb edb e1 p1 e2 p2 em h1 h2 h3
    unfold login
    rw [if_neg (by decide : ¬((("Employer" : String) == "Developer") = true)),
      if_pos (by decide : (("Employer" : String) == "Employer") = true)]
    rw [h1, h2]
    unfold loginWith
    simp [h3]

/-- C7 witness: the developer conjunct applied to a one-account store. -/
theorem c7_login_no_enumeration_witness :
    login [exDev1] [] "b@x.com" "pw" "Developer" =
      login [exDev1] [] "a@x.com" "wrong" "Developer" ∧
    login [exDev1] [] "b@x.com" "pw" "Developer" =
      ⟨401, false, "Invalid credentials", none⟩ := by
  exact c7_login_no_enumeration.1 [exDev1] [] "b@x.com" "pw" "a@x.com" "wrong" exDev1
    (by rfl) (by rfl) (by rfl)

theorem rankRel_matchCount_le {qs : List String} {sortBy : String} {asc : Bool}
    {a b : Developer} (h : rankRel qs sortBy asc a b) :
    matchCount qs b ≤ matchCount qs a := by
  rcases h with h | ⟨h, _⟩
  · exact Nat.le_of_lt h
  · exact Nat.le_of_eq h.symm

/-- C8 confirmed: the search output is the page window, taken after the
ranking; the full ranking is sorted by the compound order whose primary key
is the skill overlap count descending with the requested field only as
tiebreak; consequently overlap counts are non-increasing along the ranking
and along the returned page, and a developer with a strictly larger overlap
count is ranked strictly earlier than one with a smaller count, for every
sortBy and direction. -/
theorem c8_search_ranking (q : SearchQuery) (devs : List Developer) :
    searchDevelopers q devs =
      ((searchRanking q devs).drop ((q.page - 1) * q.limit)).take q.limit ∧
    List.Sorted (rankRel (qSkills q) q.sortBy q.sortOrderAsc) (searchRanking q devs) ∧
    List.Pairwise (fun a b => matchCount (qSkills q) b ≤ matchCount (qSkills q) a)
      (searchRanking q devs) ∧
    List.Pairwise (fun a b => matchCount (qSkills q) b ≤ matchCount (qSkills q) a)
      (searchDevelopers q devs) ∧
    (∀ i j : Fin (searchRanking q devs).length,
      matchCount (qSkills q) ((searchRanking q devs).get j) <
        matchCount (qSkills q) ((searchRanking q devs).get i) →
      (i : Nat) < (j : Nat)) := by
  have hsorted :
      List.Sorted (rankRel (qSkills q) q.sortBy q.sortOrderAsc) (searchRanking q devs) :=
    List.sorted_insertionSort _ _
  have hpw : List.Pairwise (fun a b => matchCount (qSkills q) b ≤ matchCount (qSkills q) a)
      (searchRanking q devs) :=
    hsorted.imp (fun h => rankRel_matchCount_le h)
  have hsub : (searchDevelopers q devs).Sublist (searchRanking q devs) :=
    (List.take_sublist _ _).trans (List.drop_sublist _ _)
  refine ⟨rfl, hsorted, hpw, List.Pairwise.sublist hsub hpw, ?_⟩
  intro i j hlt
  rcases Nat.lt_trichotomy (i : Nat) (j : Nat) with h | h | h
  · exact h
  · exfalso
    have hij : i = j := Fin.ext h
    rw [hij] at hlt
    exact lt_irrefl _ hlt
  · have := (List.pairwise_iff_get.mp hpw) j i (by exact h)
    omega

/-- C8 witness: the Go and Rust scenario, with the tiebreak field pointing
the other way: the two-skill developer is still ranked first. -/
theorem c8_search_ranking_witness :
    matchCount ["Go", "Rust"] { id := 2, skills := ["Go"], createdAt := 5 } <
      matchCount ["Go", "Rust"] { id := 1, skills := ["Go", "Rust"], createdAt := 1 } ∧
    searchDevelopers { skills := some ["Go", "Rust"] }
        [{ id := 2, skills := ["Go"], createdAt := 5 },
          { id := 1, skills := ["Go", "Rust"], createdAt := 1 }] =
      [{ id := 1, skills := ["Go", "Rust"], createdAt := 1 },
        { id := 2, skills := ["Go"], createdAt := 5 }] ∧
    (0 : Nat) < 1 := by
  have h := c8_search_ranking { skills := some ["Go", "Rust"] }
    [{ id := 2, skills := ["Go"], createdAt := 5 },
      { id := 1, skills := ["Go", "Rust"], createdAt := 1 }]
  refine ⟨by decide, by decide, ?_⟩
  exact h.2.2.2.2 ⟨0, by decide⟩ ⟨1, by decide⟩ (by decide)

theorem authenticateToken_authed_role (ddb : List Developer) (edb : List Employer)
    (t : AuthToken) (uid : Nat) (role : String)
    (h : authenticateToken ddb edb (some t) = .authed uid role) :
    role = "Developer" ∨ role = "Employer" := by
  simp only [authenticateToken] at h
  by_cases h1 : (t.role == "Developer") = true
  · rw [if_pos h1] at h
    cases hfind : ddb.find? (fun d => d.id == t.userId) with
    | none => rw [hfind] at h; exact absurd h (by simp)
    | some u =>
      rw [hfind] at h
      injection h with h2 h3
      left
      rw [← h3]
      exact eq_of_beq h1
  · rw [if_neg h1] at h
    by_cases h2 : (t.role == "Employer") = true
    · rw [if_pos h2] at h
      cases hfind : edb.find? (fun e => e.id == t.userId) with
      | none => rw [hfind] at h; exact absurd h (by simp)
      | some u =>
        rw [hfind] at h
        injection h with h3 h4
        right
        rw [← h4]
        exact eq_of_beq h2
    · rw [if_neg h2] at h
      exact absurd h (by simp)

/-- C9 confirmed: every token signed by the signup or login routes carries
role Developer or Employer; the middleware answers 401 Invalid user role for
any other role; and the Admin-gated DELETE route never reaches its handler
body, answering 401 or 403 and leaving the collection unchanged, for every
token whatsoever. -/
theorem c9_admin_routes_unreachable :
    (∀ (ddb : List Developer) (e : String) (nid : Nat) (t : AuthToken),
      developerSignupToken ddb e nid = some t → t.role = "Developer") ∧
    (∀ (edb : List Employer) (e : String) (nid : Nat) (t : AuthToken),
      employerSignupToken edb e nid = some t → t.role = "Employer") ∧
    (∀ (ddb : List Developer) (edb : List Employer) (e p ut : String) (t : AuthToken),
      (login ddb edb e p ut).token = some t →
      t.role = "Developer" ∨ t.role = "Employer") ∧
    (∀ (ddb : List Developer) (edb : List Employer) (t : AuthToken),
      t.role ≠ "Developer" → t.role ≠ "Employer" →
      authenticateToken ddb edb (some t) = .unauthorized "Invalid user role") ∧
    (∀ (ddb : List Developer) (edb : List Employer) (jdb : List JobRequest)
        (tok : Option AuthToken) (i : Nat),
      ((deleteJobRequestRoute ddb edb jdb tok i).1 = .forbidden ∨
        ∃ m, (deleteJobRequestRoute ddb edb jdb tok i).1 = .unauthorized m) ∧
      (deleteJobRequestRoute ddb edb jdb tok i).2 = jdb ∧
      (∀ r, (deleteJobRequestRoute ddb edb jdb tok i).1 ≠ .handlerRan r)) := by
  refine ⟨?_, ?_, ?_, ?_, ?_⟩
  · intro ddb e nid t h
    unfold developerSignupToken at h
    by_cases hex : (findDeveloperByEmail ddb e).isSome = true
    · rw [if_pos hex] at h; exact absurd h (by simp)
    · rw [if_neg hex] at h
      injection h with h2
      rw [← h2]
  · intro edb e nid t h
    unfold employerSignupToken at h
    by_cases hex : (findEmployerByEmail edb e).isSome = true
    · rw [if_pos hex] at h; exact absurd h (by simp)
    · rw [if_neg hex] at h
      injection h with h2
      rw [← h2]
  · intro ddb edb e p ut t h
    unfold login at h
    by_cases h1 : (ut == "Developer") = true
    · rw [if_pos h1] at h
      left
      unfold loginWith at h
      cases hfind : (findDeveloperByEmail ddb e).map (fun d => (d.id, d.password)) with
      | none => rw [hfind] at h; exact absurd h (by simp)
      | some a =>
        obtain ⟨uid0, stored0⟩ := a
        rw [hfind] at h
        dsimp only at h
        by_cases hp : comparePassword p stored0 = true
        · rw [if_neg (by simp [hp])] at h
          dsimp only at h
          injection h with h5
          rw [← h5]
          exact eq_of_beq h1
        · rw [if_pos (by simp [hp])] at h
          exact absurd h (by simp)
    · rw [if_neg h1] at h
      by_cases h2 : (ut == "Employer") = true
      · rw [if_pos h2] at h
        right
        unfold loginWith at h
        cases hfind : (findEmployerByEmail edb e).map (fun d => (d.id, d.password)) with
        | none => rw [hfind] at h; exact absurd h (by simp)
        | some a =>
          obtain ⟨uid0, stored0⟩ := a
          rw [hfind] at h
          dsimp only at h
          by_cases hp : comparePassword p stored0 = true
          · rw [if_neg (by simp [hp])] at h
            dsimp only at h
            injection h with h5
            rw [← h5]
            exact eq_of_beq h2
          · rw [if_pos (by simp [hp])] at h
            exact absurd h (by simp)
      · rw [if_neg h2] at h
        exact absurd h (by simp)
  · intro ddb edb t h1 h2
    simp only [authenticateToken]
    rw [if_neg (by simpa using h1), if_neg (by simpa using h2)]
  · intro ddb edb jdb tok i
    cases hauth : authenticateToken ddb edb tok with
    | unauthorized m =>
      unfold deleteJobRequestRoute
      rw [hauth]
      exact ⟨Or.inr ⟨m, rfl⟩, rfl, fun r => by simp⟩
    | authed uid role =>
      rcases tok with _ | t
      · exact absurd hauth (by simp [authenticateToken])
      · have hrole := authenticateToken_authed_role ddb edb t uid role hauth
        have hc : ¬(["Admin"].contains role) = true := by
          rcases hrole with h | h <;> rw [h] <;> decide
        unfold deleteJobRequestRoute
        rw [hauth]
        dsimp only
        rw [if_pos hc]
        exact ⟨Or.inl rfl, rfl, fun r => by simp⟩

/-- C9 witness: the conjuncts applied to concrete stores and tokens. -/
theorem c9_admin_routes_unreachable_witness :
    (⟨3, "Developer"⟩ : AuthToken).role = "Developer" ∧
    (deleteJobRequestRoute [exDev1] [] [exPending] (some ⟨1, "Developer"⟩) 9).1 =
      .forbidden ∨
    (deleteJobRequestRoute [exDev1] [] [exPending] (some ⟨1, "Developer"⟩) 9).2 =
      [exPending] := by
  left
  constructor
  · exact c9_admin_routes_unreachable.1 [] "e@x.com" 3 ⟨3, "Developer"⟩ (by rfl)
  · have h := (c9_admin_routes_unreachable.2.2.2.2 [exDev1] [] [exPending]
      (some ⟨1, "Developer"⟩) 9).1
    rcases h with h | ⟨m, h⟩
    · exact h
    · have hval : (deleteJobRequestRoute [exDev1] [] [exPending]
          (some ⟨1, "Developer"⟩) 9).1 = AdminRouteOutcome.forbidden := by decide
      rw [hval] at h
      exact AdminRouteOutcome.noConfusion h

/-- Fixture: the pending request with stored interview and developer notes. -/
def exNoted : JobRequest :=
  { exPending with interviewNotes := some "old", developerNotes := some "dn" }

/-- C10 counterexample: the claim says a permitted field whose provided value
is the empty string is dropped from the write in the update operation (the
operation proceeding without it).  The owning Employer of the pending noted
fixture sends interviewNotes as the empty string: the Joi validation
middleware rejects the whole body with 400 (string.empty) before the handler
runs, so nothing is written and the request fails rather than proceeding
with the field dropped. -/
theorem c10_empty_string_counterexample :
    (putJobRequest [exNoted] 5 "Employer" 9 { interviewNotes := some "" }).1 =
      JRResponse.validationError ∧
    (putJobRequest [exNoted] 5 "Employer" 9 { interviewNotes := some "" }).1.httpStatus
      = 400 ∧
    (putJobRequest [exNoted] 5 "Employer" 9 { interviewNotes := some "" }).2 =
      [exNoted] := by
  refine ⟨rfl, rfl, rfl⟩

/-- C10 amended: in the update operation a permitted field that is absent is
dropped from the write by the truthiness gate, while an empty-string value
in a permitted field causes the whole request to be rejected 400 by the
validation middleware before the handler runs — either way a caller can
never clear interviewNotes, employerNotes or developerNotes; accept and
reject, whose routes have no body validation, drop a falsy developerNotes
(absent or empty) keeping the stored developerNotes, and change no field
other than status and developerNotes. -/
theorem c10_falsy_fields_amended
    (db : List JobRequest) (jr : JobRequest) (i uid : Nat)
    (b : UpdateBody) (notes : Option String)
    (hfind : findJR db i = some jr) :
    (jr.employerId = uid → validJobRequestUpdate b = true →
      (putJobRequest db uid "Employer" i b).1 =
        .ok (applyUpdate jr (buildUpdateData "Employer" b)) ∧
      (b.interviewDate = none →
        (applyUpdate jr (buildUpdateData "Employer" b)).interviewDate = jr.interviewDate) ∧
      (b.interviewLocation = none →
        (applyUpdate jr (buildUpdateData "Employer" b)).interviewLocation =
          jr.interviewLocation) ∧
      (b.interviewNotes = none →
        (applyUpdate jr (buildUpdateData "Employer" b)).interviewNotes = jr.interviewNotes) ∧
      (b.employerNotes = none →
        (applyUpdate jr (buildUpdateData "Employer" b)).employerNotes = jr.employerNotes)) ∧
    (jr.developerId = uid → validJobRequestUpdate b = true →
      (putJobRequest db uid "Developer" i b).1 =
        .ok (applyUpdate jr (buildUpdateData "Developer" b)) ∧
      (b.developerNotes = none →
        (applyUpdate jr (buildUpdateData "Developer" b)).developerNotes =
          jr.developerNotes) ∧
      (b.status = none →
        (applyUpdate jr (buildUpdateData "Developer" b)).status = jr.status)) ∧
    (∀ b2 : UpdateBody,
      (b2.interviewLocation = some "" ∨ b2.interviewNotes = some "" ∨
        b2.employerNotes = some "" ∨ b2.developerNotes = some "") →
      putJobRequest db uid "Employer" i b2 = (.validationError, db) ∧
      putJobRequest db uid "Developer" i b2 = (.validationError, db)) ∧
    (jr.developerId = uid → jr.status = "pending" →
      ((acceptJobRequest db uid i notes).1 =
        .ok { jr with status := "accepted",
                      developerNotes := if truthy notes then notes else jr.developerNotes } ∧
       (rejectJobRequest db uid i notes).1 =
        .ok { jr with status := "rejected",
                      developerNotes := if truthy notes then notes else jr.developerNotes }) ∧
      (truthy notes = false →
        (acceptJobRequest db uid i notes).1 = .ok { jr with status := "accepted" } ∧
        (rejectJobRequest db uid i notes).1 = .ok { jr with status := "rejected" })) := by
  refine ⟨?_, ?_, ?_, ?_⟩
  · intro hown hv
    have hput := putJobRequest_eq_ok db jr i uid "Employer" b hv hfind
      (by simp) (by simp [hown])
    refine ⟨by rw [hput], ?_, ?_, ?_, ?_⟩ <;> intro hf <;>
      simp [applyUpdate, buildUpdateData, truthy, hf]
  · intro hown hv
    have hput := putJobRequest_eq_ok db jr i uid "Developer" b hv hfind
      (by simp [hown]) (by simp)
    refine ⟨by rw [hput], ?_, ?_⟩ <;> intro hf <;>
      simp [applyUpdate, buildUpdateData, truthy, hf]
  · intro b2 hemp
    have hval : validJobRequestUpdate b2 = false := by
      unfold validJobRequestUpdate
      rcases hemp with h | h | h | h <;> rw [h] <;> simp
    constructor <;> (unfold putJobRequest; rw [hval]; simp)
  · intro hown hpend
    have hacc : (acceptJobRequest db uid i notes).1 =
        .ok { jr with status := "accepted",
                      developerNotes := if truthy notes then notes else jr.developerNotes } := by
      unfold acceptJobRequest
      rw [hfind]
      simp [hown, hpend]
    have hrej : (rejectJobRequest db uid i notes).1 =
        .ok { jr with status := "rejected",
                      developerNotes := if truthy notes then notes else jr.developerNotes } := by
      unfold rejectJobRequest
      rw [hfind]
      simp [hown, hpend]
    refine ⟨⟨hacc, hrej⟩, ?_⟩
    intro hf
    constructor
    · rw [hacc, hf]
      simp
    · rw [hrej, hf]
      simp

/-- C10 witness: the amended theorem applied to the noted fixture, with an
Employer body that omits interviewNotes (left unchanged by the write), an
empty-string body (rejected), and accept with empty-string notes. -/
theorem c10_falsy_fields_amended_witness :
    (putJobRequest [exNoted] 5 "Employer" 9 { employerNotes := some "x" }).1 =
      .ok (applyUpdate exNoted (buildUpdateData "Employer"
        { employerNotes := some "x" })) ∧
    (applyUpdate exNoted
        (buildUpdateData "Employer" { employerNotes := some "x" })).interviewNotes =
      some "old" ∧
    putJobRequest [exNoted] 5 "Employer" 9 { interviewNotes := some "" } =
      (.validationError, [exNoted]) ∧
    (acceptJobRequest [exNoted] 1 9 (some "")).1 =
      .ok { exNoted with status := "accepted" } := by
  have hE := c10_falsy_fields_amended [exNoted] exNoted 9 5
    { employerNotes := some "x" } (some "") (by decide)
  have hD := c10_falsy_fields_amended [exNoted] exNoted 9 1
    { employerNotes := some "x" } (some "") (by decide)
  refine ⟨?_, ?_, ?_, ?_⟩
  · exact (hE.1 (by decide) (by decide)).1
  · have h1 := (hE.1 (by decide) (by decide)).2.2.2.1 (by rfl)
    rw [h1]
    decide
  · exact (hE.2.2.1 { interviewNotes := some "" } (Or.inr (Or.inl rfl))).1
  · exact ((hD.2.2.2 (by decide) (by decide)).2 (by decide)).1

end Hamkar
